import Mathlib

/-!
Verification of the Financial News Intelligence System against its
natural-language specification.

The repository ships its configuration (src/config.py) and top-level drivers
(src/main.py, src/streamlit_app.py); the pipeline components themselves
(Entity Normalizer, Deduplicator, Entity & Impact Extractor, Query Engine,
in src/workflow.py and src/agents/) are not among the shown files, so they
are modelled from the specification, over the real configuration data
transcribed from src/config.py.

Text is embedded as lists of characters; confidences and similarities are
rational numbers.
-/

namespace FNIS

/-! ## Text utilities -/

/-- Lower-case a character sequence (models Python str.lower for the ASCII
range used by the configuration dictionaries). -/
def lowerStr (s : List Char) : List Char := s.map Char.toLower

/-- A word character, for word-boundary aware keyword matching (letters,
digits, underscore, as in a regex word class). -/
def isWordChar (c : Char) : Bool := c.isAlpha || c.isDigit || c = '_'

/-- Earliest index at which pattern occurs as a contiguous sublist, if any. -/
def findSub (pat : List Char) : List Char → Option Nat
  | [] => if pat.isEmpty then some 0 else none
  | c :: rest =>
    if pat.isPrefixOf (c :: rest) then some 0
    else (findSub pat rest).map (· + 1)

/-- Boundary test on the left of position i. -/
def boundaryBefore (s : List Char) (i : Nat) : Bool :=
  match i with
  | 0 => true
  | j + 1 =>
    match s[j]? with
    | none => true
    | some c => !isWordChar c

/-- Boundary test at position j (one past the end of a match). -/
def boundaryAfter (s : List Char) (j : Nat) : Bool :=
  match s[j]? with
  | none => true
  | some c => !isWordChar c

/-- The pattern occurs at position i of s with word boundaries on both
sides. -/
def wordAt (pat s : List Char) (i : Nat) : Bool :=
  pat.isPrefixOf (s.drop i) && boundaryBefore s i && boundaryAfter s (i + pat.length)

/-- The pattern occurs somewhere in s with word boundaries. -/
def wordOccurs (pat s : List Char) : Bool :=
  (List.range (s.length + 1)).any (fun i => wordAt pat s i)

/-! ## Configuration, transcribed from src/config.py -/

/-- Transcribed from src/config.py line 24: cosine similarity threshold for
duplicates, 0.85 (written via mkRat so that comparisons evaluate;
threshold_eq below relates it to the decimal literal). -/
def SIMILARITY_THRESHOLD : ℚ := mkRat 85 100

lemma threshold_eq : SIMILARITY_THRESHOLD = 0.85 := by
  norm_num [SIMILARITY_THRESHOLD, mkRat, Rat.normalize]

/-- The apostrophe character, used in two dictionary keys. -/
def apos : Char := Char.ofNat 39

/-- Key "Dr. Reddy's" from src/config.py line 57. -/
def drReddyDot : String := String.mk (['D', 'r', '.', ' ', 'R', 'e', 'd', 'd', 'y'] ++ [apos, 's'])

/-- Key "Dr Reddy's" from src/config.py line 58. -/
def drReddyNoDot : String := String.mk (['D', 'r', ' ', 'R', 'e', 'd', 'd', 'y'] ++ [apos, 's'])

/-- Transcribed from src/config.py lines 30-80: surface form to stock symbol
dictionary, in source order. -/
def STOCK_SYMBOLS_MAPPING : List (String × String) :=
  [("HDFC Bank", "HDFCBANK"),
   ("HDFC", "HDFCBANK"),
   ("ICICI Bank", "ICICIBANK"),
   ("ICICI", "ICICIBANK"),
   ("State Bank of India", "SBIN"),
   ("SBI", "SBIN"),
   ("Axis Bank", "AXISBANK"),
   ("Kotak Mahindra Bank", "KOTAKBANK"),
   ("Kotak Bank", "KOTAKBANK"),
   ("Punjab National Bank", "PNB"),
   ("Bank of Baroda", "BANKBARODA"),
   ("IndusInd Bank", "INDUSINDBK"),
   ("TCS", "TCS"),
   ("Tata Consultancy Services", "TCS"),
   ("Infosys", "INFY"),
   ("Wipro", "WIPRO"),
   ("HCL Technologies", "HCLTECH"),
   ("HCL", "HCLTECH"),
   ("Tech Mahindra", "TECHM"),
   ("Sun Pharma", "SUNPHARMA"),
   ("Sun Pharmaceutical", "SUNPHARMA"),
   (drReddyDot, "DRREDDY"),
   (drReddyNoDot, "DRREDDY"),
   ("Cipla", "CIPLA"),
   ("Lupin", "LUPIN"),
   ("Maruti Suzuki", "MARUTI"),
   ("Tata Motors", "TATAMOTORS"),
   ("Mahindra", "M&M"),
   ("Mahindra & Mahindra", "M&M"),
   ("Bajaj Auto", "BAJAJ-AUTO"),
   ("Hindustan Unilever", "HINDUNILVR"),
   ("HUL", "HINDUNILVR"),
   ("ITC", "ITC"),
   ("Nestle", "NESTLEIND"),
   ("Reliance Industries", "RELIANCE"),
   ("Reliance", "RELIANCE"),
   ("ONGC", "ONGC"),
   ("Oil and Natural Gas Corporation", "ONGC")]

/-- Transcribed from src/config.py lines 83-90: sector keyword lists. -/
def SECTOR_KEYWORDS : List (String × List String) :=
  [("Banking", ["bank", "banking", "lender", "loan", "credit", "deposit", "NPA", "NPAs", "bad loans"]),
   ("IT", ["IT", "software", "technology", "digital", "tech", "IT services", "outsourcing"]),
   ("Pharma", ["pharma", "pharmaceutical", "drug", "medicine", "FDA", "clinical trial"]),
   ("Auto", ["automobile", "auto", "vehicle", "car", "SUV", "two-wheeler"]),
   ("FMCG", ["FMCG", "consumer goods", "fast-moving", "retail"]),
   ("Energy", ["oil", "gas", "petroleum", "refinery", "crude", "energy"])]

/-- Transcribed from src/config.py lines 93-98: regulator keyword lists. -/
def REGULATOR_KEYWORDS : List (String × List String) :=
  [("RBI", ["RBI", "Reserve Bank", "Reserve Bank of India", "central bank", "repo rate", "CRR", "SLR"]),
   ("SEBI", ["SEBI", "Securities and Exchange Board", "market regulator", "insider trading"]),
   ("FED", ["Federal Reserve", "Fed", "FOMC", "US central bank"]),
   ("IRDAI", ["IRDAI", "Insurance Regulatory", "insurance regulator"])]

/-- Transcribed from src/config.py lines 101-107: named confidence scores
1.0, 0.8, 0.6, 0.7, 0.5 (written via mkRat so that comparisons evaluate;
confScore_values below relates them to the decimal literals). -/
def CONFIDENCE_SCORES : List (String × ℚ) :=
  [("direct_mention", 1),
   ("sector_high", mkRat 8 10),
   ("sector_medium", mkRat 6 10),
   ("regulator_high", mkRat 7 10),
   ("regulator_medium", mkRat 5 10)]

/-- Look up a named confidence score in the table. -/
def confScore (n : String) : ℚ :=
  match CONFIDENCE_SCORES.find? (fun p => p.1 = n) with
  | some p => p.2
  | none => 0

lemma confScore_values :
    confScore "direct_mention" = 1.0 ∧ confScore "sector_high" = 0.8 ∧
    confScore "sector_medium" = 0.6 ∧ confScore "regulator_high" = 0.7 ∧
    confScore "regulator_medium" = 0.5 := by
  refine ⟨?_, ?_, ?_, ?_, ?_⟩ <;>
    simp [confScore, CONFIDENCE_SCORES, List.find?] <;>
    norm_num [mkRat, Rat.normalize]

/-! ## Entity Normalizer (spec section 4.1) -/

/-- Earliest case-insensitive occurrence position of a dictionary key in the
text, if any. -/
def keyPos (key : String) (text : List Char) : Option Nat :=
  findSub (lowerStr key.toList) (lowerStr text)

/-- A candidate resolution: the dictionary key that matched, its symbol, and
the position of its earliest occurrence. -/
structure Cand where
  key : String
  sym : String
  pos : Nat
deriving DecidableEq

/-- Modelled from the spec: the longest-match-first selection rule of the
Entity Normalizer (spec section 4.1; the normalizer code in src/agents is
absent from src/). A new candidate replaces the current best exactly when
its key is longer, or of equal length and occurring earlier in the text. -/
def stepCand (text : List Char) (best : Option Cand) (e : String × String) : Option Cand :=
  match keyPos e.1 text with
  | none => best
  | some p =>
    match best with
    | none => some ⟨e.1, e.2, p⟩
    | some b =>
      if b.key.length < e.1.length ∨ (e.1.length = b.key.length ∧ p < b.pos) then
        some ⟨e.1, e.2, p⟩
      else some b

/-- Modelled from the spec: the best candidate over the whole dictionary. -/
def bestCand (text : List Char) : Option Cand :=
  STOCK_SYMBOLS_MAPPING.foldl (stepCand text) none

/-- Modelled from the spec: normalize(mention) of section 4.1 — the symbol of
the best candidate, none when no key occurs. -/
def normalize (text : List Char) : Option String := (bestCand text).map Cand.sym

/-! ## Normalizer lemmas -/

/-- Candidate c dominates an occurrence of key k at position p: the candidate
key is at least as long, and on equal length it occurs no later. -/
def Dominates (c : Cand) (k : String) (p : Nat) : Prop :=
  k.length ≤ c.key.length ∧ (c.key.length = k.length → c.pos ≤ p)

lemma stepCand_ite {t : List Char} (b : Cand) (e : String × String) {q : Nat}
    (hk : keyPos e.1 t = some q) :
    stepCand t (some b) e =
      if b.key.length < e.1.length ∨ (e.1.length = b.key.length ∧ q < b.pos) then
        some ⟨e.1, e.2, q⟩
      else some b := by
  unfold stepCand
  rw [hk]

lemma stepCand_dominates {t : List Char} {b : Cand} {k : String} {p : Nat}
    (h : Dominates b k p) (e : String × String) :
    ∃ b', stepCand t (some b) e = some b' ∧ Dominates b' k p := by
  cases hk : keyPos e.1 t with
  | none => exact ⟨b, by unfold stepCand; rw [hk], h⟩
  | some q =>
    rw [stepCand_ite b e hk]
    by_cases hc : b.key.length < e.1.length ∨ (e.1.length = b.key.length ∧ q < b.pos)
    · refine ⟨⟨e.1, e.2, q⟩, by rw [if_pos hc], ?_, ?_⟩
      · rcases hc with h1 | h2
        · exact le_of_lt (lt_of_le_of_lt h.1 h1)
        · exact h2.1 ▸ h.1
      · intro hlen
        rcases hc with h1 | h2
        · exact absurd (hlen ▸ h1) (not_lt.2 h.1)
        · exact le_trans (le_of_lt h2.2) (h.2 (h2.1 ▸ hlen))
    · exact ⟨b, by rw [if_neg hc], h⟩

lemma foldl_stepCand_dominates {t : List Char} {k : String} {p : Nat} :
    ∀ (l : List (String × String)) {b : Cand}, Dominates b k p →
      ∃ c, l.foldl (stepCand t) (some b) = some c ∧ Dominates c k p := by
  intro l
  induction l with
  | nil => intro b h; exact ⟨b, rfl, h⟩
  | cons e l ih =>
    intro b h
    obtain ⟨b', hb', hd⟩ := stepCand_dominates h e
    rw [List.foldl_cons, hb']
    exact ih hd

lemma stepCand_none_best {t : List Char} (e : String × String) {q : Nat}
    (hk : keyPos e.1 t = some q) :
    stepCand t none e = some ⟨e.1, e.2, q⟩ := by
  unfold stepCand
  rw [hk]

lemma stepCand_entry {t : List Char} (e : String × String) {p : Nat}
    (hp : keyPos e.1 t = some p) (best : Option Cand) :
    ∃ b', stepCand t best e = some b' ∧ Dominates b' e.1 p := by
  cases best with
  | none => exact ⟨⟨e.1, e.2, p⟩, stepCand_none_best e hp, le_refl _, fun _ => le_refl _⟩
  | some b =>
    rw [stepCand_ite b e hp]
    by_cases hc : b.key.length < e.1.length ∨ (e.1.length = b.key.length ∧ p < b.pos)
    · exact ⟨⟨e.1, e.2, p⟩, by rw [if_pos hc], le_refl _, fun _ => le_refl _⟩
    · have hcc := hc
      push_neg at hcc
      exact ⟨b, by rw [if_neg hc], hcc.1, fun hl => hcc.2 hl.symm⟩

lemma bestCand_complete_aux {t : List Char} {k s : String} {p : Nat} :
    ∀ (l : List (String × String)) (best : Option Cand), (k, s) ∈ l →
      keyPos k t = some p →
      ∃ c, l.foldl (stepCand t) best = some c ∧ Dominates c k p := by
  intro l
  induction l with
  | nil => intro best h; cases h
  | cons e l ih =>
    intro best hmem hp
    rw [List.foldl_cons]
    rcases List.mem_cons.1 hmem with heq | htail
    · have he1 : e.1 = k := by rw [← heq]
      obtain ⟨b', hb', hd⟩ := stepCand_entry e (by rw [he1]; exact hp) best
      rw [he1] at hd
      obtain ⟨c, hc, hdc⟩ := foldl_stepCand_dominates l hd
      rw [hb']
      exact ⟨c, hc, hdc⟩
    · exact ih (stepCand t best e) htail hp

lemma bestCand_sound_aux {t : List Char} :
    ∀ (l : List (String × String)) (best : Option Cand) (c : Cand),
      l.foldl (stepCand t) best = some c →
      best = some c ∨ ((c.key, c.sym) ∈ l ∧ keyPos c.key t = some c.pos) := by
  intro l
  induction l with
  | nil => intro best c h; exact Or.inl h
  | cons e l ih =>
    intro best c h
    rw [List.foldl_cons] at h
    rcases ih _ _ h with hstep | htail
    · cases hk : keyPos e.1 t with
      | none =>
        unfold stepCand at hstep
        rw [hk] at hstep
        exact Or.inl hstep
      | some q =>
        cases best with
        | none =>
          rw [stepCand_none_best e hk] at hstep
          cases hstep
          exact Or.inr ⟨List.mem_cons_self _ _, hk⟩
        | some b =>
          rw [stepCand_ite b e hk] at hstep
          by_cases hc : b.key.length < e.1.length ∨ (e.1.length = b.key.length ∧ q < b.pos)
          · rw [if_pos hc] at hstep
            cases hstep
            exact Or.inr ⟨List.mem_cons_self _ _, hk⟩
          · rw [if_neg hc] at hstep
            exact Or.inl hstep
    · exact Or.inr ⟨List.mem_cons_of_mem _ htail.1, htail.2⟩

lemma bestCand_sound {t : List Char} {c : Cand} (h : bestCand t = some c) :
    (c.key, c.sym) ∈ STOCK_SYMBOLS_MAPPING ∧ keyPos c.key t = some c.pos := by
  rcases bestCand_sound_aux STOCK_SYMBOLS_MAPPING none c h with h0 | h1
  · cases h0
  · exact h1

/-! ## Claim C4 -/

/-- C4 (amended): normalize applies a longest-match-first policy over
STOCK_SYMBOLS_MAPPING — whenever a dictionary key occurs case-insensitively
in the input, normalize resolves to the symbol of an occurring key of
maximal length, ties broken by the earliest occurrence in the text; in
particular the text "HDFC Bank" resolves to HDFCBANK rather than being
captured by the shorter alias "HDFC". (The original claim's "any text
containing HDFC Bank" fails when a longer key also occurs, see the
counterexample.) -/
theorem normalize_longest_match :
    (∀ (t : List Char) (k s : String) (p : Nat),
        (k, s) ∈ STOCK_SYMBOLS_MAPPING → keyPos k t = some p →
        ∃ c, bestCand t = some c ∧ normalize t = some c.sym ∧
          (c.key, c.sym) ∈ STOCK_SYMBOLS_MAPPING ∧ keyPos c.key t = some c.pos ∧
          k.length ≤ c.key.length ∧ (c.key.length = k.length → c.pos ≤ p)) ∧
    normalize ("HDFC Bank".toList) = some "HDFCBANK" := by
  constructor
  · intro t k s p hmem hp
    obtain ⟨c, hc, hd⟩ := bestCand_complete_aux STOCK_SYMBOLS_MAPPING none hmem hp
    have hs := bestCand_sound hc
    refine ⟨c, hc, ?_, hs.1, hs.2, hd.1, hd.2⟩
    unfold normalize bestCand
    rw [hc]
    rfl
  · decide

/-- C4 witness: the theorem applied to the text "HDFC Bank" and the
occurring shorter alias "HDFC" (at position 0). -/
theorem normalize_longest_match_witness :
    ∃ c, bestCand ("HDFC Bank".toList) = some c ∧
      normalize ("HDFC Bank".toList) = some c.sym ∧
      (c.key, c.sym) ∈ STOCK_SYMBOLS_MAPPING ∧
      keyPos c.key ("HDFC Bank".toList) = some c.pos ∧
      ("HDFC" : String).length ≤ c.key.length ∧
      (c.key.length = ("HDFC" : String).length → c.pos ≤ 0) :=
  normalize_longest_match.1 ("HDFC Bank".toList) "HDFC" "HDFCBANK" 0 (by decide) (by decide)

/-- C4 counterexample: the text "State Bank of India buys HDFC Bank" contains
"HDFC Bank" (at position 25), yet normalize returns SBIN — the longer key
"State Bank of India" wins under the longest-match-first policy the claim
itself states, so "any text containing HDFC Bank resolves to HDFCBANK" is
false. -/
theorem normalize_longest_match_cex :
    keyPos "HDFC Bank" ("State Bank of India buys HDFC Bank".toList) = some 25 ∧
    normalize ("State Bank of India buys HDFC Bank".toList) = some "SBIN" ∧
    normalize ("State Bank of India buys HDFC Bank".toList) ≠ some "HDFCBANK" :=
  ⟨by decide, by decide, by decide⟩

/-! ## Deduplicator (spec section 4.2) -/

/-- Modelled from the spec: greedy first-match clustering step of the
Deduplicator (section 4.2; the workflow code is absent from src/). An
incoming article joins the first cluster whose representative — the first
article added to that cluster — has similarity at or above
SIMILARITY_THRESHOLD; otherwise it starts a new cluster at the end. -/
def addToCluster (sim : α → α → ℚ) (a : α) : List (List α) → List (List α)
  | [] => [[a]]
  | c :: cs =>
    if SIMILARITY_THRESHOLD ≤ sim (c.headD a) a then (c ++ [a]) :: cs
    else c :: addToCluster sim a cs

/-- Modelled from the spec: intra-batch clustering processed in input
order. -/
def clusterBatch (sim : α → α → ℚ) (batch : List α) : List (List α) :=
  batch.foldl (fun cs a => addToCluster sim a cs) []

/-! ## Claim C2 -/

/-- C2 (amended): for a batch of two articles, the clustering cutoff is
inclusive on the greater-or-equal side of SIMILARITY_THRESHOLD = 0.85:
similarity at or above 0.85 places the two articles in one cluster, and
similarity strictly below 0.85 leaves them in separate clusters. (For
larger batches co-clustering is mediated by cluster representatives, so the
pairwise form of the claim fails, see the counterexample.) -/
theorem dedup_threshold_boundary {α : Type} (sim : α → α → ℚ) (a b : α) :
    SIMILARITY_THRESHOLD = 0.85 ∧
    (SIMILARITY_THRESHOLD ≤ sim a b → clusterBatch sim [a, b] = [[a, b]]) ∧
    (sim a b < SIMILARITY_THRESHOLD → clusterBatch sim [a, b] = [[a], [b]]) := by
  have e1 : clusterBatch sim [a, b] =
      if SIMILARITY_THRESHOLD ≤ sim a b then [[a, b]] else [[a], [b]] := rfl
  refine ⟨threshold_eq, ?_, ?_⟩
  · intro h
    rw [e1, if_pos h]
  · intro h
    rw [e1, if_neg (not_le.2 h)]

/-- Similarity table for the C2 counterexample: article 1 and article 2 are
each similar (0.9) to article 0, but only 0.3 similar to each other. -/
def csim : Nat → Nat → ℚ := fun i j =>
  if (i = 0 ∧ j = 1) ∨ (i = 1 ∧ j = 0) ∨ (i = 0 ∧ j = 2) ∨ (i = 2 ∧ j = 0) then mkRat 9 10
  else mkRat 3 10

/-- C2 counterexample: in the batch [0, 1, 2] under csim, articles 1 and 2
end in the same cluster although their pairwise similarity 0.3 is strictly
below 0.85 — greedy clustering compares against representatives, not all
pairs, so the claim's for-every-pair form is false. -/
theorem dedup_threshold_boundary_cex :
    clusterBatch csim [0, 1, 2] = [[0, 1, 2]] ∧
    csim 1 2 < SIMILARITY_THRESHOLD :=
  ⟨by decide, by decide⟩

/-- Constant similarity exactly at the threshold, 0.85. -/
def wsimEq : Nat → Nat → ℚ := fun _ _ => mkRat 85 100

/-- Constant similarity just below the threshold, 0.8499. -/
def wsimLt : Nat → Nat → ℚ := fun _ _ => mkRat 8499 10000

/-- C2 witness: the amended theorem applied at similarity exactly 0.85
(same cluster) and at 0.8499 (separate clusters). -/
theorem dedup_threshold_boundary_witness :
    clusterBatch wsimEq [0, 1] = [[0, 1]] ∧ clusterBatch wsimLt [0, 1] = [[0], [1]] :=
  ⟨(dedup_threshold_boundary wsimEq 0 1).2.1 (by decide),
   (dedup_threshold_boundary wsimLt 0 1).2.2 (by decide)⟩

/-! ## Entity and Impact Extractor (spec section 4.3) -/

/-- A deduplicated story: canonical headline and merged content. -/
structure Story where
  headline : List Char
  content : List Char

/-- Headline and content joined; the text over which extraction runs. -/
def fullText (st : Story) : List Char := st.headline ++ ' ' :: st.content

/-- A keyword matches a text when it occurs case-insensitively with word
boundaries (spec section 4.1). -/
def kwMatch (kw : String) (text : List Char) : Bool :=
  wordOccurs (lowerStr kw.toList) (lowerStr text)

/-- Some keyword of the list matches the text. -/
def kwHits (kws : List String) (text : List Char) : Bool :=
  kws.any (fun kw => kwMatch kw text)

/-- Modelled from the spec: classify_sector of section 4.1, keyword-set
membership over the real SECTOR_KEYWORDS table (the classifier code in
src/agents is absent from src/). -/
def classify_sector (text : List Char) : List String :=
  SECTOR_KEYWORDS.filterMap (fun e => if kwHits e.2 text then some e.1 else none)

/-- Modelled from the spec: classify_regulator of section 4.1 over the real
REGULATOR_KEYWORDS table. -/
def classify_regulator (text : List Char) : List String :=
  REGULATOR_KEYWORDS.filterMap (fun e => if kwHits e.2 text then some e.1 else none)

/-- Keyword list configured for a tag. -/
def lookupKws (table : List (String × List String)) (tag : String) : List String :=
  match table.find? (fun e => e.1 = tag) with
  | some e => e.2
  | none => []

/-- Modelled from the spec: confidence attached to a matched sector —
sector_high (0.8) when a sector keyword occurs in the headline, else
sector_medium (0.6) for a body-only match (spec section 4.3 step 3). -/
def sectorConf (st : Story) (tag : String) : ℚ :=
  if kwHits (lookupKws SECTOR_KEYWORDS tag) st.headline then confScore "sector_high"
  else confScore "sector_medium"

/-- Modelled from the spec: regulator_high (0.7) for a headline match, else
regulator_medium (0.5) (spec section 4.3 step 4). -/
def regulatorConf (st : Story) (tag : String) : ℚ :=
  if kwHits (lookupKws REGULATOR_KEYWORDS tag) st.headline then confScore "regulator_high"
  else confScore "regulator_medium"

/-- Extracted entity sets per story (spec section 3, EntitySet). -/
structure EntitySet where
  companies : List (List Char)
  sectors : List String
  regulators : List String
deriving DecidableEq

/-- A stock impact entry (spec section 3, StockImpact). -/
structure StockImpact where
  symbol : String
  confidence : ℚ
  impactType : String
deriving DecidableEq

/-- An impact rule candidate before merging: symbol, confidence, rule type. -/
abbrev ImpactCand := String × ℚ × String

/-- Modelled from the spec: direct-mention candidates — every organization
span produced by the injected NER capability that the normalizer resolves
yields a candidate at confidence direct_mention = 1.0 (section 4.3 step 2). -/
def directCands (ner : List Char → List (List Char)) (st : Story) : List ImpactCand :=
  (ner (fullText st)).filterMap
    (fun span => (normalize span).map (fun sym => (sym, confScore "direct_mention", "direct")))

/-- Modelled from the spec: sector matches do not name a symbol; their
confidences attach only to symbols already found by direct mention in the
same story (section 4.3 step 5, section 9). -/
def sectorCands (st : Story) (directSyms : List String) : List ImpactCand :=
  (classify_sector (fullText st)).flatMap
    (fun tag => directSyms.map (fun sym => (sym, sectorConf st tag, "sector")))

/-- Modelled from the spec: regulator matches, analogous to sectorCands. -/
def regulatorCands (st : Story) (directSyms : List String) : List ImpactCand :=
  (classify_regulator (fullText st)).flatMap
    (fun tag => directSyms.map (fun sym => (sym, regulatorConf st tag, "regulator")))

/-- Modelled from the spec: all impact rule candidates of a story. -/
def impactCandidates (ner : List Char → List (List Char)) (st : Story) : List ImpactCand :=
  directCands ner st ++
    sectorCands st ((directCands ner st).map (fun c => c.1)) ++
    regulatorCands st ((directCands ner st).map (fun c => c.1))

/-- Confidences of all rules that produced a symbol. -/
def confsFor (cands : List ImpactCand) (sym : String) : List ℚ :=
  (cands.filter (fun c => c.1 = sym)).map (fun c => c.2.1)

/-- Maximum confidence across the rules that produced a symbol (section 4.3
step 6); 0 when no rule produced it. -/
def maxConf (cands : List ImpactCand) (sym : String) : ℚ :=
  match confsFor cands sym with
  | [] => 0
  | c :: rest => rest.foldl max c

/-- Rule type recorded for a merged symbol: that of the first rule achieving
the maximum confidence. -/
def typeFor (cands : List ImpactCand) (sym : String) : String :=
  match (cands.filter (fun c => c.1 = sym ∧ c.2.1 = maxConf cands sym)).head? with
  | some c => c.2.2
  | none => ""

/-- Ordering of the final impact list: descending confidence, then ascending
symbol (section 4.3 step 6). -/
def impactBefore (a b : StockImpact) : Prop :=
  b.confidence < a.confidence ∨
    (a.confidence = b.confidence ∧ (a.symbol < b.symbol ∨ a.symbol = b.symbol))

instance : DecidableRel impactBefore := fun a b => by
  unfold impactBefore
  infer_instance

/-- Modelled from the spec: merging of impact candidates — deduplicate by
symbol keeping the maximum confidence, ordered by descending confidence then
ascending symbol (section 4.3 step 6). -/
def mergeImpacts (cands : List ImpactCand) : List StockImpact :=
  List.insertionSort impactBefore
    (((cands.map (fun c => c.1)).dedup).map
      (fun sym => ⟨sym, maxConf cands sym, typeFor cands sym⟩))

/-- Modelled from the spec: extract of section 4.3 — entity sets plus the
merged stock impact list, over an injected NER capability. -/
def extract (ner : List Char → List (List Char)) (st : Story) :
    EntitySet × List StockImpact :=
  (⟨((ner (fullText st)).map lowerStr).dedup,
    classify_sector (fullText st),
    classify_regulator (fullText st)⟩,
   mergeImpacts (impactCandidates ner st))

/-! ## Maximum lemmas and Claim C1 -/

lemma le_foldl_max : ∀ (l : List ℚ) (a : ℚ), a ≤ l.foldl max a := by
  intro l
  induction l with
  | nil => intro a; exact le_refl a
  | cons x l ih => intro a; exact le_trans (le_max_left a x) (ih (max a x))

lemma mem_le_foldl_max : ∀ (l : List ℚ) (a x : ℚ), x ∈ l → x ≤ l.foldl max a := by
  intro l
  induction l with
  | nil => intro a x h; cases h
  | cons y l ih =>
    intro a x h
    rcases List.mem_cons.1 h with rfl | h2
    · exact le_trans (le_max_right a x) (le_foldl_max l (max a x))
    · exact ih (max a y) x h2

lemma foldl_max_mem : ∀ (l : List ℚ) (a : ℚ), l.foldl max a = a ∨ l.foldl max a ∈ l := by
  intro l
  induction l with
  | nil => intro a; exact Or.inl rfl
  | cons x l ih =>
    intro a
    rcases ih (max a x) with h | h
    · rcases le_total a x with hax | hxa
      · right
        rw [List.foldl_cons, h, max_eq_right hax]
        exact List.mem_cons_self x l
      · left
        rw [List.foldl_cons, h, max_eq_left hxa]
    · right
      rw [List.foldl_cons]
      exact List.mem_cons_of_mem x h

lemma confsFor_mem {cands : List ImpactCand} {c : ImpactCand} (hc : c ∈ cands)
    (hs : c.1 = sym) : c.2.1 ∈ confsFor cands sym := by
  unfold confsFor
  exact List.mem_map_of_mem _ (List.mem_filter.2 ⟨hc, by simp [hs]⟩)

lemma maxConf_spec {cands : List ImpactCand} {sym : String}
    (h : ∃ c ∈ cands, c.1 = sym) :
    maxConf cands sym ∈ confsFor cands sym ∧
      ∀ q ∈ confsFor cands sym, q ≤ maxConf cands sym := by
  obtain ⟨c, hc, hs⟩ := h
  have hmem : c.2.1 ∈ confsFor cands sym := confsFor_mem hc hs
  cases hcf : confsFor cands sym with
  | nil => rw [hcf] at hmem; cases hmem
  | cons q rest =>
    have hm : maxConf cands sym = rest.foldl max q := by
      unfold maxConf
      rw [hcf]
    rw [hm]
    constructor
    · rcases foldl_max_mem rest q with h1 | h1
      · rw [h1]; exact List.mem_cons_self q rest
      · exact List.mem_cons_of_mem q h1
    · intro x hx
      rcases List.mem_cons.1 hx with rfl | h2
      · exact le_foldl_max rest x
      · exact mem_le_foldl_max rest q x h2

/-- C1: every stock impact extract returns has a symbol unique in the final
list, and its recorded confidence equals the maximum confidence over all
rules that produced that symbol (never a sum or average); a symbol matched
both via direct mention (1.0) and via sector (0.8) therefore ends at
exactly 1.0. -/
theorem extract_max_merge (ner : List Char → List (List Char)) (st : Story)
    (i : StockImpact) (hi : i ∈ (extract ner st).2) :
    (((extract ner st).2.map StockImpact.symbol).count i.symbol = 1) ∧
    (∃ c ∈ impactCandidates ner st, c.1 = i.symbol ∧ c.2.1 = i.confidence) ∧
    (∀ c ∈ impactCandidates ner st, c.1 = i.symbol → c.2.1 ≤ i.confidence) := by
  have hperm :
      List.Perm ((extract ner st).2)
        ((((impactCandidates ner st).map (fun c => c.1)).dedup).map
          (fun sym =>
            (⟨sym, maxConf (impactCandidates ner st) sym,
              typeFor (impactCandidates ner st) sym⟩ : StockImpact))) :=
    List.perm_insertionSort impactBefore _
  have hi2 := hperm.mem_iff.1 hi
  obtain ⟨sym, hsymmem, hieq⟩ := List.mem_map.1 hi2
  have hsymbol : i.symbol = sym := by rw [← hieq]
  have hconf : i.confidence = maxConf (impactCandidates ner st) sym := by rw [← hieq]
  have hex : ∃ c ∈ impactCandidates ner st, c.1 = sym := by
    obtain ⟨c, hc, hcs⟩ := List.mem_map.1 (List.mem_dedup.1 hsymmem)
    exact ⟨c, hc, hcs⟩
  have hmax := maxConf_spec hex
  refine ⟨?_, ?_, ?_⟩
  · have hpm := hperm.map StockImpact.symbol
    rw [List.Perm.count_eq hpm, List.map_map]
    have hdn :
        List.map (StockImpact.symbol ∘ fun sym =>
            (⟨sym, maxConf (impactCandidates ner st) sym,
              typeFor (impactCandidates ner st) sym⟩ : StockImpact))
          (((impactCandidates ner st).map (fun c => c.1)).dedup) =
        ((impactCandidates ner st).map (fun c => c.1)).dedup := by
      rw [show (StockImpact.symbol ∘ fun sym =>
            (⟨sym, maxConf (impactCandidates ner st) sym,
              typeFor (impactCandidates ner st) sym⟩ : StockImpact)) = id from rfl]
      exact List.map_id _
    rw [hdn, hsymbol]
    exact List.count_eq_one_of_mem (List.nodup_dedup _) hsymmem
  · obtain ⟨c, hcmem, hcval⟩ := List.mem_map.1 hmax.1
    have hcf := List.mem_filter.1 hcmem
    refine ⟨c, hcf.1, ?_, ?_⟩
    · rw [hsymbol]
      simpa using hcf.2
    · rw [hconf]
      exact hcval
  · intro c hc hcs
    rw [hconf]
    exact hmax.2 _ (confsFor_mem hc (hsymbol ▸ hcs))

/-- NER capability for the C1 witness: one organization span, "HDFC Bank". -/
def w1ner : List Char → List (List Char) := fun _ => ["HDFC Bank".toList]

/-- Story for the C1 witness: symbol HDFCBANK is matched directly (1.0) and
the Banking sector keyword occurs in the headline (0.8). -/
def w1st : Story := ⟨"HDFC Bank".toList, "banking".toList⟩

/-- Impact expected for the C1 witness. -/
def w1imp : StockImpact := ⟨"HDFCBANK", 1, "direct"⟩

/-- C1 witness: the theorem applied to the concrete story where HDFCBANK is
produced both by the direct rule (1.0) and the sector rule (0.8); the merged
confidence is exactly 1. -/
theorem extract_max_merge_witness :
    ("HDFCBANK", (1 : ℚ), "direct") ∈ impactCandidates w1ner w1st ∧
    ("HDFCBANK", mkRat 8 10, "sector") ∈ impactCandidates w1ner w1st ∧
    w1imp ∈ (extract w1ner w1st).2 ∧
    w1imp.confidence = 1 ∧
    ((extract w1ner w1st).2.map StockImpact.symbol).count w1imp.symbol = 1 :=
  ⟨by decide, by decide, by decide, rfl,
   (extract_max_merge w1ner w1st w1imp (by decide)).1⟩

/-! ## Claim C3 -/

/-- C3: when no organization span of a story resolves to a symbol, extract
still reports the sector and regulator tags in the EntitySet but returns an
empty StockImpact list — sector and regulator matches alone never generate a
StockImpact entry. -/
theorem extract_sector_only (ner : List Char → List (List Char)) (st : Story)
    (h : ∀ span ∈ ner (fullText st), normalize span = none) :
    (extract ner st).1.sectors = classify_sector (fullText st) ∧
    (extract ner st).1.regulators = classify_regulator (fullText st) ∧
    (extract ner st).2 = [] := by
  refine ⟨rfl, rfl, ?_⟩
  have hdc : directCands ner st = [] := by
    rw [directCands, List.filterMap_eq_nil_iff]
    intro span hs
    rw [h span hs]
    rfl
  have hcands : impactCandidates ner st = [] := by
    rw [impactCandidates, hdc]
    simp [sectorCands, regulatorCands]
  show mergeImpacts (impactCandidates ner st) = []
  rw [hcands]
  rfl

/-- NER capability for the C3 witness: one span that no dictionary key
matches. -/
def w3ner : List Char → List (List Char) := fun _ => ["Foo Corp".toList]

/-- Story for the C3 witness: sector keywords occur but no resolvable
organization mention. -/
def w3st : Story := ⟨"Banking outlook".toList, "loan growth".toList⟩

/-- C3 witness: the theorem applied to the concrete story — the Banking tag
is reported yet the impact list is empty. -/
theorem extract_sector_only_witness :
    (extract w3ner w3st).2 = [] ∧ classify_sector (fullText w3st) = ["Banking"] :=
  ⟨(extract_sector_only w3ner w3st (by
      intro s hs
      simp only [w3ner, List.mem_singleton] at hs
      subst hs
      decide)).2.2,
   by decide⟩

/-! ## Claim C5 -/

/-- C5: for a matched sector, extract attaches confidence 0.8 when a sector
keyword occurs in the headline and 0.6 when it occurs only in the body;
analogously a matched regulator gets 0.7 for a headline match and 0.5 for a
body-only match. -/
theorem sector_regulator_confidence (st : Story) (tag rtag : String)
    (_hs : tag ∈ classify_sector (fullText st))
    (_hr : rtag ∈ classify_regulator (fullText st)) :
    (kwHits (lookupKws SECTOR_KEYWORDS tag) st.headline = true →
      sectorConf st tag = 0.8) ∧
    (kwHits (lookupKws SECTOR_KEYWORDS tag) st.headline = false →
      sectorConf st tag = 0.6) ∧
    (kwHits (lookupKws REGULATOR_KEYWORDS rtag) st.headline = true →
      regulatorConf st rtag = 0.7) ∧
    (kwHits (lookupKws REGULATOR_KEYWORDS rtag) st.headline = false →
      regulatorConf st rtag = 0.5) := by
  refine ⟨?_, ?_, ?_, ?_⟩ <;> intro h
  · rw [sectorConf, if_pos h]
    exact confScore_values.2.1
  · rw [sectorConf, if_neg (by rw [h]; exact Bool.false_ne_true)]
    exact confScore_values.2.2.1
  · rw [regulatorConf, if_pos h]
    exact confScore_values.2.2.2.1
  · rw [regulatorConf, if_neg (by rw [h]; exact Bool.false_ne_true)]
    exact confScore_values.2.2.2.2

/-- Story for the C5 witness: a Banking keyword in the headline, the RBI
keyword only in the body. -/
def w5st : Story := ⟨"Bank rally".toList, "RBI repo view".toList⟩

/-- C5 witness: the theorem applied to the concrete story — headline sector
match scores 0.8, body-only regulator match scores 0.5. -/
theorem sector_regulator_confidence_witness :
    sectorConf w5st "Banking" = 0.8 ∧ regulatorConf w5st "RBI" = 0.5 :=
  ⟨(sector_regulator_confidence w5st "Banking" "RBI" (by decide) (by decide)).1
      (by decide),
   (sector_regulator_confidence w5st "Banking" "RBI" (by decide) (by decide)).2.2.2
      (by decide)⟩

/-! ## Claim C10 -/

/-- C10: because the IT sector keyword list contains the bare keyword "IT"
and matching is case-insensitive with word boundaries, every text containing
the standalone word "it" — an ordinary pronoun — receives the sector tag
"IT" from classify_sector. -/
theorem it_pronoun_classifies (text : List Char) (i : Nat)
    (h : wordAt ['i', 't'] (lowerStr text) i = true) :
    "IT" ∈ classify_sector text := by
  have hlow : lowerStr ("IT".toList) = ['i', 't'] := by decide
  have hoccurs : wordOccurs ['i', 't'] (lowerStr text) = true := by
    have hpre : (['i', 't'] : List Char).isPrefixOf ((lowerStr text).drop i) = true := by
      have h2 := h
      unfold wordAt at h2
      rw [Bool.and_eq_true, Bool.and_eq_true] at h2
      exact h2.1.1
    have hi : i < (lowerStr text).length + 1 := by
      by_contra hge
      push_neg at hge
      have hdrop : (lowerStr text).drop i = [] :=
        List.drop_eq_nil_of_le (by omega)
      rw [hdrop] at hpre
      cases hpre
    rw [wordOccurs, List.any_eq_true]
    exact ⟨i, List.mem_range.2 hi, h⟩
  have hkw :
      kwHits ["IT", "software", "technology", "digital", "tech", "IT services",
        "outsourcing"] text = true := by
    rw [kwHits, List.any_eq_true]
    refine ⟨"IT", by decide, ?_⟩
    rw [kwMatch, hlow]
    exact hoccurs
  apply List.mem_filterMap.2
  refine ⟨("IT", ["IT", "software", "technology", "digital", "tech", "IT services",
    "outsourcing"]), by decide, ?_⟩
  simp [hkw]

/-- Text for the C10 witness: an ordinary English sentence using the pronoun
"it" (standalone word at position 9). -/
def w10text : List Char := "She said it was fine".toList

/-- C10 witness: the theorem applied to the concrete sentence. -/
theorem it_pronoun_classifies_witness : "IT" ∈ classify_sector w10text :=
  it_pronoun_classifies w10text 9 (by decide)

/-! ## Query Engine (spec section 4.4) -/

/-- A story as returned by the Store for a query, with its metadata. -/
structure StoredStory where
  headline : List Char
  companies : List String
  sectors : List String
  regulators : List String
  date : Nat
deriving DecidableEq

/-- Error taxonomy of the query path (spec section 7). -/
inductive QueryError where
  | InvalidQuery
deriving DecidableEq

/-- One ranked query result. -/
structure ResultItem where
  headline : List Char
  relevance_score : ℚ
  date : Nat
deriving DecidableEq

/-- Response of query_news (spec section 3, QueryResponse). -/
structure QueryResponse where
  total_results : Nat
  companies : List String
  sectors : List String
  regulators : List String
  results : List ResultItem
deriving DecidableEq

/-- Clamp a rational into [0, 1]. -/
def clamp01 (x : ℚ) : ℚ := min 1 (max 0 x)

/-- Modelled from the spec: boost magnitude per unit of entity/sector
overlap; the spec leaves the magnitude implementation-defined and requires
only monotonicity (section 4.4 step 3). Chosen: 1/10. -/
def BOOST : ℚ := mkRat 1 10

/-- Modelled from the spec: relevance combines the embedding-similarity
score with a boost for exact entity/sector overlap, clamped into [0, 1]
(section 4.4 step 3). -/
def relevance_score (sim : ℚ) (overlap : Nat) : ℚ :=
  clamp01 (sim + overlap * BOOST)

/-- Modelled from the spec: number of query-detected tags shared with a
story — query expansion applies the same classifiers and normalizer to the
query text (section 4.4 step 1). -/
def queryOverlap (q : List Char) (st : StoredStory) : Nat :=
  ((classify_sector q).filter (fun t => t ∈ st.sectors)).length +
  ((classify_regulator q).filter (fun t => t ∈ st.regulators)).length +
  (match normalize q with
   | some sym => if sym ∈ st.companies then 1 else 0
   | none => 0)

/-- Ranking order: higher relevance first; on equal relevance the newer
story (larger date) first (section 4.4 step 3 tie-break). -/
def rankBefore (a b : ResultItem) : Prop :=
  b.relevance_score < a.relevance_score ∨
    (a.relevance_score = b.relevance_score ∧ b.date ≤ a.date)

instance : DecidableRel rankBefore := fun a b => by
  unfold rankBefore
  infer_instance

instance : IsTotal ResultItem rankBefore := ⟨by
  intro a b
  rcases lt_trichotomy a.relevance_score b.relevance_score with h | h | h
  · exact Or.inr (Or.inl h)
  · rcases le_total b.date a.date with hd | hd
    · exact Or.inl (Or.inr ⟨h, hd⟩)
    · exact Or.inr (Or.inr ⟨h.symm, hd⟩)
  · exact Or.inl (Or.inl h)⟩

instance : IsTrans ResultItem rankBefore := ⟨by
  intro a b c hab hbc
  rcases hab with h1 | ⟨e1, d1⟩
  · rcases hbc with h2 | ⟨e2, d2⟩
    · exact Or.inl (lt_trans h2 h1)
    · exact Or.inl (e2 ▸ h1)
  · rcases hbc with h2 | ⟨e2, d2⟩
    · exact Or.inl (by rw [e1]; exact h2)
    · exact Or.inr ⟨e1.trans e2, le_trans d2 d1⟩⟩

/-- Modelled from the spec: re-ranking of the retrieved candidates
(section 4.4 step 3). -/
def rerank (q : List Char) (cands : List (StoredStory × ℚ)) : List ResultItem :=
  List.insertionSort rankBefore
    (cands.map (fun c =>
      ⟨c.1.headline, relevance_score c.2 (queryOverlap q c.1), c.1.date⟩))

/-- Modelled from the spec: query_news of sections 4.4 and 6 (the workflow
code is absent from src/). The Store is the injected nearest-neighbor
capability; the second component of the result counts the Store retrieval
operations performed. An empty query fails with InvalidQuery before any
retrieval. -/
def query_news (nearest : List Char → List (StoredStory × ℚ)) (q : List Char) :
    Except QueryError QueryResponse × Nat :=
  if q.isEmpty then (Except.error QueryError.InvalidQuery, 0)
  else
    (Except.ok
      ⟨(rerank q (nearest q)).length,
       ((nearest q).map (fun c => c.1.companies)).flatten.dedup,
       ((nearest q).map (fun c => c.1.sectors)).flatten.dedup,
       ((nearest q).map (fun c => c.1.regulators)).flatten.dedup,
       rerank q (nearest q)⟩, 1)

/-! ## Claim C6 -/

/-- C6: query_news applied to the empty string fails with InvalidQuery and
performs zero Store retrievals, for every Store — the nearest-neighbor
capability is never consulted on that path. -/
theorem query_news_empty_invalid (nearest : List Char → List (StoredStory × ℚ)) :
    query_news nearest [] = (Except.error QueryError.InvalidQuery, 0) := rfl

/-! ## Claim C8 -/

/-- C8: relevance scores lie in [0, 1] and are monotone in the exact
entity/sector overlap with the similarity held equal; the re-ranked result
list is ordered by descending relevance, equal-relevance ties broken in
favor of the newer story. -/
theorem relevance_bounds_monotone_ties :
    (∀ (sim : ℚ) (ov : Nat),
      0 ≤ relevance_score sim ov ∧ relevance_score sim ov ≤ 1) ∧
    (∀ (sim : ℚ) (o₁ o₂ : Nat), o₁ ≤ o₂ →
      relevance_score sim o₁ ≤ relevance_score sim o₂) ∧
    (∀ (q : List Char) (cands : List (StoredStory × ℚ)),
      (rerank q cands).Pairwise
        (fun a b => b.relevance_score ≤ a.relevance_score ∧
          (a.relevance_score = b.relevance_score → b.date ≤ a.date))) := by
  refine ⟨?_, ?_, ?_⟩
  · intro sim ov
    exact ⟨le_min (by norm_num) (le_max_left 0 _), min_le_left 1 _⟩
  · intro sim o₁ o₂ h
    unfold relevance_score clamp01
    refine min_le_min (le_refl 1) (max_le_max (le_refl 0) (add_le_add_left ?_ sim))
    refine mul_le_mul_of_nonneg_right (Nat.cast_le.2 h) ?_
    decide
  · intro q cands
    have hs : List.Sorted rankBefore (rerank q cands) :=
      List.sorted_insertionSort rankBefore _
    have hp : (rerank q cands).Pairwise rankBefore := hs
    refine hp.imp ?_
    intro a b hab
    rcases hab with h1 | ⟨e1, d1⟩
    · exact ⟨le_of_lt h1, fun he => absurd (he ▸ h1) (lt_irrefl _)⟩
    · exact ⟨le_of_eq e1.symm, fun _ => d1⟩

/-- Query text for the C8 witness. -/
def w8q : List Char := "bank news".toList

/-- Stored story for the C8 witness. -/
def w8story : StoredStory := ⟨"x".toList, [], ["Banking"], [], 5⟩

/-- Store candidates for the C8 witness. -/
def w8cands : List (StoredStory × ℚ) := [(w8story, mkRat 1 2)]

/-- C8 witness: the theorem applied at similarity 1/2 and overlaps 1 and 2,
and at a concrete candidate list. -/
theorem relevance_bounds_monotone_ties_witness :
    (0 ≤ relevance_score (mkRat 1 2) 2 ∧ relevance_score (mkRat 1 2) 2 ≤ 1) ∧
    relevance_score (mkRat 1 2) 1 ≤ relevance_score (mkRat 1 2) 2 ∧
    (rerank w8q w8cands).Pairwise
      (fun a b => b.relevance_score ≤ a.relevance_score ∧
        (a.relevance_score = b.relevance_score → b.date ≤ a.date)) :=
  ⟨relevance_bounds_monotone_ties.1 (mkRat 1 2) 2,
   relevance_bounds_monotone_ties.2.1 (mkRat 1 2) 1 2 (by decide),
   relevance_bounds_monotone_ties.2.2 w8q w8cands⟩

/-! ## process_news (spec sections 4.2, 6, 7) and Claim C7 -/

/-- Structured result of process_news (spec section 6): the ingested batch,
the consolidated story clusters, and the per-article error list. -/
structure ProcResult (α : Type) where
  ingested : List α
  stories : List (List α)
  errors : List (α × String)

/-- Modelled from the spec: process_news — embed each article via the
injected Embedder, isolate per-article embedding failures into the errors
list, cluster the successfully embedded articles, and always return a
structured result (sections 4.2, 6, 7; the workflow code is absent from
src/). -/
def process_news (embed : α → Except String (List ℚ))
    (simv : List ℚ → List ℚ → ℚ) (batch : List α) : ProcResult α :=
  { ingested := batch
    stories :=
      (clusterBatch (fun p q => simv p.2 q.2)
        (batch.filterMap (fun a =>
          match embed a with
          | Except.ok v => some (a, v)
          | Except.error _ => none))).map (fun c => c.map Prod.fst)
    errors := batch.filterMap (fun a =>
      match embed a with
      | Except.ok _ => none
      | Except.error e => some (a, e)) }

lemma addToCluster_mem {α : Type} (sim : α → α → ℚ) (a x : α) :
    ∀ cs : List (List α),
      (∃ c ∈ addToCluster sim a cs, x ∈ c) ↔ (x = a ∨ ∃ c ∈ cs, x ∈ c) := by
  intro cs
  induction cs with
  | nil => simp [addToCluster]
  | cons c cs ih =>
    show (∃ d ∈ (if SIMILARITY_THRESHOLD ≤ sim (c.headD a) a then (c ++ [a]) :: cs
        else c :: addToCluster sim a cs), x ∈ d) ↔ _
    by_cases h : SIMILARITY_THRESHOLD ≤ sim (c.headD a) a
    · rw [if_pos h]
      simp only [List.mem_cons, List.mem_append, List.mem_singleton]
      constructor
      · rintro ⟨d, hd | hd, hxd⟩
        · have hx2 : x ∈ c ++ [a] := hd ▸ hxd
          rcases List.mem_append.1 hx2 with hxc | hxa
          · exact Or.inr ⟨c, Or.inl rfl, hxc⟩
          · exact Or.inl (List.mem_singleton.1 hxa)
        · exact Or.inr ⟨d, Or.inr hd, hxd⟩
      · rintro (hxa | ⟨d, hd | hd, hxd⟩)
        · exact ⟨c ++ [a], Or.inl rfl, List.mem_append_right c (List.mem_singleton.2 hxa)⟩
        · exact ⟨c ++ [a], Or.inl rfl, List.mem_append_left _ (hd ▸ hxd)⟩
        · exact ⟨d, Or.inr hd, hxd⟩
    · rw [if_neg h]
      simp only [List.mem_cons]
      constructor
      · rintro ⟨d, hd | hd, hxd⟩
        · exact Or.inr ⟨c, Or.inl rfl, hd ▸ hxd⟩
        · rcases ih.1 ⟨d, hd, hxd⟩ with hxa | ⟨d2, hd2, hxd2⟩
          · exact Or.inl hxa
          · exact Or.inr ⟨d2, Or.inr hd2, hxd2⟩
      · rintro (hxa | ⟨d, hd | hd, hxd⟩)
        · obtain ⟨d, hd, hxd⟩ := ih.2 (Or.inl hxa)
          exact ⟨d, Or.inr hd, hxd⟩
        · exact ⟨c, Or.inl rfl, hd ▸ hxd⟩
        · obtain ⟨d2, hd2, hxd2⟩ := ih.2 (Or.inr ⟨d, hd, hxd⟩)
          exact ⟨d2, Or.inr hd2, hxd2⟩

lemma clusterBatch_mem {α : Type} (sim : α → α → ℚ) (batch : List α) (x : α) :
    (∃ c ∈ clusterBatch sim batch, x ∈ c) ↔ x ∈ batch := by
  have key : ∀ (l : List α) (cs : List (List α)),
      (∃ c ∈ l.foldl (fun cs a => addToCluster sim a cs) cs, x ∈ c) ↔
        (x ∈ l ∨ ∃ c ∈ cs, x ∈ c) := by
    intro l
    induction l with
    | nil => simp
    | cons a l ih =>
      intro cs
      rw [List.foldl_cons, ih (addToCluster sim a cs)]
      rw [addToCluster_mem sim a x cs]
      simp only [List.mem_cons]
      tauto
  have h := key batch []
  simpa [clusterBatch] using h

lemma okList_mem {α : Type} (embed : α → Except String (List ℚ)) (batch : List α)
    (p : α × List ℚ) :
    p ∈ batch.filterMap (fun a =>
        match embed a with
        | Except.ok v => some (a, v)
        | Except.error _ => none) ↔
      p.1 ∈ batch ∧ embed p.1 = Except.ok p.2 := by
  rw [List.mem_filterMap]
  constructor
  · rintro ⟨b, hb, hm⟩
    cases he : embed b with
    | error e => rw [he] at hm; cases hm
    | ok v =>
      rw [he] at hm
      cases hm
      exact ⟨hb, he⟩
  · rintro ⟨hb, he⟩
    exact ⟨p.1, hb, by rw [he]⟩

lemma errList_mem {α : Type} (embed : α → Except String (List ℚ)) (batch : List α)
    (pe : α × String) :
    pe ∈ batch.filterMap (fun a =>
        match embed a with
        | Except.ok _ => none
        | Except.error e => some (a, e)) ↔
      pe.1 ∈ batch ∧ embed pe.1 = Except.error pe.2 := by
  rw [List.mem_filterMap]
  constructor
  · rintro ⟨b, hb, hm⟩
    cases he : embed b with
    | ok v => rw [he] at hm; cases hm
    | error e =>
      rw [he] at hm
      cases hm
      exact ⟨hb, he⟩
  · rintro ⟨hb, he⟩
    exact ⟨pe.1, hb, by rw [he]⟩

/-- C7: process_news isolates a per-article embedding failure — the failing
article is recorded in the returned errors list and appears in no story
cluster, every successfully embedded article still appears in some cluster,
and the call returns the structured result with the whole batch ingested
rather than aborting. -/
theorem process_news_isolates {α : Type} (embed : α → Except String (List ℚ))
    (simv : List ℚ → List ℚ → ℚ) (batch : List α) (a : α) (ha : a ∈ batch) :
    (process_news embed simv batch).ingested = batch ∧
    (∀ e, embed a = Except.error e →
      ((a, e) ∈ (process_news embed simv batch).errors ∧
        ∀ c ∈ (process_news embed simv batch).stories, a ∉ c)) ∧
    (∀ v, embed a = Except.ok v →
      ∃ c ∈ (process_news embed simv batch).stories, a ∈ c) := by
  refine ⟨rfl, ?_, ?_⟩
  · intro e he
    constructor
    · exact (errList_mem embed batch (a, e)).2 ⟨ha, he⟩
    · intro c hc hac
      obtain ⟨d, hd, hcd⟩ := List.mem_map.1 hc
      rw [← hcd] at hac
      obtain ⟨p, hp, hpa⟩ := List.mem_map.1 hac
      have hok := (okList_mem embed batch p).1
        ((clusterBatch_mem _ _ p).1 ⟨d, hd, hp⟩)
      rw [hpa] at hok
      rw [hok.2] at he
      cases he
  · intro v hv
    have hok : (a, v) ∈ batch.filterMap (fun b =>
        match embed b with
        | Except.ok w => some (b, w)
        | Except.error _ => none) :=
      (okList_mem embed batch (a, v)).2 ⟨ha, hv⟩
    obtain ⟨c, hc, hpc⟩ :=
      (clusterBatch_mem (fun p q => simv p.2 q.2) _ (a, v)).2 hok
    exact ⟨c.map Prod.fst, List.mem_map_of_mem _ hc,
      List.mem_map_of_mem Prod.fst hpc⟩

/-- Embedder for the C7 witness: fails exactly on article 1. -/
def w7embed : Nat → Except String (List ℚ) := fun n =>
  if n = 1 then Except.error "embedding failed" else Except.ok [1]

/-- Similarity for the C7 witness: everything is similar. -/
def w7simv : List ℚ → List ℚ → ℚ := fun _ _ => 1

/-- Batch for the C7 witness. -/
def w7batch : List Nat := [0, 1, 2]

/-- C7 witness: the theorem applied to the concrete batch — the failing
article 1 is recorded in the errors list. -/
theorem process_news_isolates_witness :
    ((1 : Nat), "embedding failed") ∈ (process_news w7embed w7simv w7batch).errors :=
  ((process_news_isolates w7embed w7simv w7batch 1 (by decide)).2.1
    "embedding failed" rfl).1

/-! ## Directory initialization (src/config.py lines 15-17) and Claim C9 -/

/-- Directory names configured in src/config.py lines 10-13: data, models,
logs, chroma_db. -/
def configDirs : List String := ["data", "models", "logs", "chroma_db"]

/-- One loop step: Path.mkdir(exist_ok=True) — create the directory if
absent, succeed silently otherwise (src/config.py line 17). The filesystem
state is the list of existing directories. -/
def mkdirIfAbsent (fs : List String) (d : String) : List String :=
  if d ∈ fs then fs else fs ++ [d]

/-- The module top-level loop of src/config.py lines 15-17, which runs when
the module is imported: create each configured directory if absent. -/
def importConfig (fs : List String) : List String :=
  configDirs.foldl mkdirIfAbsent fs

lemma mkdir_mem (fs : List String) (d : String) : d ∈ mkdirIfAbsent fs d := by
  by_cases h : d ∈ fs
  · rw [mkdirIfAbsent, if_pos h]
    exact h
  · rw [mkdirIfAbsent, if_neg h]
    exact List.mem_append_right fs (List.mem_singleton.2 rfl)

lemma mkdir_mono {fs : List String} {x : String} (h : x ∈ fs) (d : String) :
    x ∈ mkdirIfAbsent fs d := by
  by_cases hd : d ∈ fs
  · rw [mkdirIfAbsent, if_pos hd]
    exact h
  · rw [mkdirIfAbsent, if_neg hd]
    exact List.mem_append_left _ h

lemma mkdir_noop {fs : List String} {d : String} (h : d ∈ fs) :
    mkdirIfAbsent fs d = fs := by
  rw [mkdirIfAbsent, if_pos h]

/-- C9 (amended): directory creation happens as an import-time side effect
of loading the configuration module (a module top-level mkdir loop in
src/config.py lines 15-17), not via a separate explicit initialization step
— but it does have idempotent create-if-absent semantics: the step creates
every configured directory, changes nothing when all of them already exist,
and repeating it is a no-op. -/
theorem config_init_idempotent (fs : List String) :
    (∀ d ∈ configDirs, d ∈ importConfig fs) ∧
    ((∀ d ∈ configDirs, d ∈ fs) → importConfig fs = fs) ∧
    importConfig (importConfig fs) = importConfig fs := by
  have hall : ∀ d ∈ configDirs, d ∈ importConfig fs := by
    intro d hd
    show d ∈ mkdirIfAbsent (mkdirIfAbsent (mkdirIfAbsent
      (mkdirIfAbsent fs "data") "models") "logs") "chroma_db"
    rcases List.mem_cons.1 hd with rfl | hd
    · exact mkdir_mono (mkdir_mono (mkdir_mono (mkdir_mem fs _) "models") "logs")
        "chroma_db"
    rcases List.mem_cons.1 hd with rfl | hd
    · exact mkdir_mono (mkdir_mono (mkdir_mem _ _) "logs") "chroma_db"
    rcases List.mem_cons.1 hd with rfl | hd
    · exact mkdir_mono (mkdir_mem _ _) "chroma_db"
    rcases List.mem_cons.1 hd with rfl | hd
    · exact mkdir_mem _ _
    cases hd
  have hnoop : ∀ gs : List String, (∀ d ∈ configDirs, d ∈ gs) → importConfig gs = gs := by
    intro gs hg
    show mkdirIfAbsent (mkdirIfAbsent (mkdirIfAbsent
      (mkdirIfAbsent gs "data") "models") "logs") "chroma_db" = gs
    rw [mkdir_noop (hg "data" (by decide)), mkdir_noop (hg "models" (by decide)),
      mkdir_noop (hg "logs" (by decide)), mkdir_noop (hg "chroma_db" (by decide))]
  exact ⟨hall, hnoop fs, hnoop (importConfig fs) hall⟩

/-- C9 counterexample: importing the configuration module is itself
effectful — on an empty filesystem it creates the four directories, so
directory creation happens as implicit import-time global state rather than
only through an explicit initialization step invoked by the entry point. -/
theorem config_init_idempotent_cex :
    importConfig [] = ["data", "models", "logs", "chroma_db"] ∧
    importConfig [] ≠ [] :=
  ⟨by decide, by decide⟩

/-- C9 witness: the amended theorem applied on the empty filesystem
(idempotence) and on the filesystem already holding all four directories
(no change). -/
theorem config_init_idempotent_witness :
    importConfig (importConfig []) = importConfig [] ∧
    importConfig ["data", "models", "logs", "chroma_db"] =
      ["data", "models", "logs", "chroma_db"] :=
  ⟨(config_init_idempotent []).2.2,
   (config_init_idempotent ["data", "models", "logs", "chroma_db"]).2.1 (by decide)⟩

end FNIS
